import Mathlib

/-
Verification of the adaptive form-field resolution and interaction engine.

The Rust sources are shallowly embedded: each Rust function that a claim
refers to is translated into a Lean function over explicit state, with the
live browser, the language-model oracle and the random-number generator
abstracted as function parameters (the embedding quantifies over their
behaviour). Machine integers are modelled as Nat; Rust byte-level string
operations are modelled over UTF-8 byte sizes.
-/

/-- Rust str::contains: substring containment, modelled as list-infix on
the character data of the strings. -/
def strContains (hay needle : String) : Bool :=
  decide (needle.data <:+: hay.data)

/-- Whether an Except value is Ok (Rust Result::is_ok). -/
def exceptIsOk {ε α : Type} : Except ε α → Bool
  | .ok _ => true
  | .error _ => false

/-- First-match association-list lookup, modelling HashMap::get
(key equality is string equality). -/
def alistLookup {α : Type} : List (String × α) → String → Option α
  | [], _ => none
  | (k, v) :: rest, key => if k = key then some v else alistLookup rest key

/- ### openrouter.rs: data model of the oracle output -/

/-- openrouter.rs DropdownType: the eight enumerated dropdown kinds. -/
inductive DropdownType
  | StandardSelect
  | CustomDiv
  | ReactComponent
  | VueComponent
  | AriaDropdown
  | MultiSelect
  | SearchableDropdown
  | CascadingDropdown
deriving DecidableEq

/-- openrouter.rs InteractionStrategy: the closed five-variant strategy enum. -/
inductive InteractionStrategy
  | DirectSelect
  | ClickToOpen
  | KeyboardNavigation
  | TypeToSearch
  | MultiStep
deriving DecidableEq

/-- openrouter.rs DropdownAnalysis (confidence, an f32 in the source, is
modelled as a rational; it plays no role in control flow). -/
structure DropdownAnalysis where
  dropdown_type : DropdownType
  interaction_strategy : InteractionStrategy
  trigger_selector : Option String
  options_container_selector : Option String
  requires_scroll : Bool
  is_dynamic : Bool
  confidence : Rat
  reasoning : String
deriving DecidableEq

/- ### dropdown_service.rs: execute_multi_step (claim C1)

The four single-strategy handlers drive the browser; their outcomes are
abstracted as a function exec from strategy to Except. execute_multi_step
iterates the fixed strategies array, skipping MultiStep inside the match
(the continue arm of the source), returning the first Ok result, and it
additionally returns the instrumented list of strategies attempted. -/

/-- The fixed strategies array of execute_multi_step, in source order. -/
def multiStepOrder : List InteractionStrategy :=
  [.ClickToOpen, .TypeToSearch, .KeyboardNavigation, .DirectSelect]

/-- The loop body of execute_multi_step: try each strategy of the list in
order (the MultiStep arm is continue, to avoid infinite recursion); return
on the first Ok, else fall through to the final error. The second component
records the strategies actually attempted. -/
def runMultiStepStrategies (fieldName : String)
    (exec : InteractionStrategy → Except String Unit) :
    List InteractionStrategy → List InteractionStrategy →
    Except String Unit × List InteractionStrategy
  | [], attempted =>
    (.error ("All multi-step strategies failed for dropdown: " ++ fieldName), attempted)
  | s :: rest, attempted =>
    match s with
    | .MultiStep => runMultiStepStrategies fieldName exec rest attempted
    | _ =>
      let r := exec s
      if exceptIsOk r then (r, attempted ++ [s])
      else runMultiStepStrategies fieldName exec rest (attempted ++ [s])

/-- dropdown_service.rs execute_multi_step. -/
def execute_multi_step (fieldName : String)
    (exec : InteractionStrategy → Except String Unit) :
    Except String Unit × List InteractionStrategy :=
  runMultiStepStrategies fieldName exec multiStepOrder []

/- ### dropdown_service.rs: execute_keyboard_navigation (claim C7)

The browser operations (focus, key presses, sleeps, typing) are recorded
as events; the Rust byte slice value[..1.min(value.len())] is modelled
exactly: slicing at a byte index that is not a character boundary is a
panic, modelled as none. -/

/-- Take a prefix of a character list occupying exactly n UTF-8 bytes;
none when n does not land on a character boundary (a Rust byte-slice
panic). -/
def rustByteTake : List Char → Nat → Option (List Char)
  | _, 0 => some []
  | [], _ + 1 => none
  | c :: cs, n + 1 =>
    if c.utf8Size ≤ n + 1 then
      (rustByteTake cs (n + 1 - c.utf8Size)).map (c :: ·)
    else none

/-- Rust &s[..n] for a byte index n: some prefix when n is a character
boundary of s, none (panic) otherwise. -/
def rustByteSliceTo (s : String) (n : Nat) : Option String :=
  (rustByteTake s.data n).map (fun l => ⟨l⟩)

/-- Browser operations performed by execute_keyboard_navigation. -/
inductive KbdEvent
  | focus
  | key (name : String)
  | sleepMs (ms : Nat)
  | typeChars (s : String)
deriving DecidableEq

/-- dropdown_service.rs execute_keyboard_navigation, with each browser
operation assumed to succeed: the list of operations performed, or none
when the first-character byte slice panics. -/
def execute_keyboard_navigation (value : String) : Option (List KbdEvent) :=
  let opening := [KbdEvent.focus, KbdEvent.key "Space", KbdEvent.sleepMs 200]
  if value.isEmpty then
    some (opening ++ [KbdEvent.key "Enter"])
  else
    match rustByteSliceTo value (min 1 value.utf8ByteSize) with
    | none => none
    | some firstPart =>
      some (opening ++
        [KbdEvent.typeChars firstPart, KbdEvent.sleepMs 300, KbdEvent.key "Enter"])

/- ### services.rs: validate_dropdown_selection (claim C10)

The page state observed by the validation script is modelled as the
element matched by the selector (if any): its tag name, its option list
(value and text per option) and its selectedIndex (-1 in the DOM when no
option is selected). -/

/-- One option element of a select: its value attribute and its text. -/
structure OptionElem where
  value : String
  text : String
deriving DecidableEq

/-- The DOM element the validation script queries. -/
structure DomSelect where
  tagName : String
  options : List OptionElem
  selectedIndex : Int
deriving DecidableEq

/-- JS element.options[element.selectedIndex]: undefined (none) when the
index is out of range, in particular when selectedIndex is -1. -/
def selectedOption (e : DomSelect) : Option OptionElem :=
  if 0 ≤ e.selectedIndex then e.options.get? e.selectedIndex.toNat else none

/-- The value the validation script reads: the selected option value when
the element exists, is a select, and has a selected option; null (none)
otherwise. -/
def currentSelectedValue (el : Option DomSelect) : Option String :=
  match el with
  | none => none
  | some e =>
    if e.tagName.toLower = "select" then
      match selectedOption e with
      | some opt => some opt.value
      | none => none
    else none

/-- services.rs validate_dropdown_selection: true exactly when the re-read
selected option value equals the expected value (a null read is reported
as not valid). -/
def validate_dropdown_selection (el : Option DomSelect) (expected : String) : Bool :=
  match currentSelectedValue el with
  | some current => current = expected
  | none => false

/- ### services.rs: per-selector dispatch of run_automation (claim C5)

For one candidate selector the orchestrator classifies it as dropdown-like
by substring tests on the selector string, then runs the AI dropdown path,
the legacy validator (3 retries) and failure recovery in that fallback
order, or a plain 5-second-timeout fill for non-dropdown selectors. The
outcomes of the four callees are abstracted as Booleans; the steps actually
attempted are recorded. -/

/-- services.rs run_automation is_dropdown test on a candidate selector. -/
def isDropdownSelector (selector : String) : Bool :=
  strContains selector "select[" || strContains selector "dropdown" ||
  strContains selector "combobox" || strContains selector "listbox"

/-- The sub-paths run_automation can attempt for one candidate selector. -/
inductive FillStep
  | aiDropdown
  | legacyValidator (maxRetries : Nat)
  | failureRecovery
  | plainFill (timeoutSecs : Nat)
deriving DecidableEq

/-- services.rs run_automation, the body handling one candidate selector:
aiOk is the outcome of analyze_and_select_dropdown, valOk of
select_dropdown_with_validation (called with max_retries 3), recOk of
handle_selection_failure, fillOk of the 5-second-timeout plain fill.
Returns whether the selector succeeded and the steps attempted. In the
source a recovery outcome never makes the selector succeed (the recovery
result is only logged), mirrored here by ignoring recOk in the result. -/
def selector_fill_dispatch (aiOk valOk recOk fillOk : Bool) (selector : String) :
    Bool × List FillStep :=
  if isDropdownSelector selector then
    if aiOk then (true, [.aiDropdown])
    else if valOk then (true, [.aiDropdown, .legacyValidator 3])
    else
      let _ := recOk
      (false, [.aiDropdown, .legacyValidator 3, .failureRecovery])
  else (fillOk, [.plainFill 5])

/- ### services.rs: select_dropdown_with_validation (claims C2, C8)

The two named strategies are tried in fixed order, each for up to
max_retries attempts; attempts after the first are preceded by a random
backoff delay drawn by human_delay_ms(500*attempt, 1500*attempt); an
attempt that reports success must pass validate_dropdown_selection before
the loop may return Ok. The browser-dependent pieces are abstracted:
attemptOk gives the reported outcome of the per-strategy selection call,
validation the outcome of the post-attempt validation read (none models a
validation Err), rng the generator behind human_delay_ms. -/

/-- The strategies array of select_dropdown_with_validation, source order. -/
def strategiesList : List String :=
  ["JavaScript DOM Manipulation", "Click-based Selection"]

/-- The abstracted environment of one select_dropdown_with_validation run. -/
structure ValidatorEnv where
  attemptOk : String → Nat → Bool
  validation : String → Nat → Option Bool
  rng : Nat → Nat → Nat

/-- What one attempt of one strategy amounts to. -/
inductive AttemptOutcome
  | selectionFailed
  | validationFailed
  | validationError
  | validatedSuccess
deriving DecidableEq

/-- The outcome of attempt number `attempt` of strategy `strat`: the
selection call, then (only on reported success) the validation read. -/
def attemptOutcome (env : ValidatorEnv) (strat : String) (attempt : Nat) :
    AttemptOutcome :=
  if env.attemptOk strat attempt then
    match env.validation strat attempt with
    | some true => .validatedSuccess
    | some false => .validationFailed
    | none => .validationError
  else .selectionFailed

/-- Observable events of a select_dropdown_with_validation run. -/
inductive ValidatorEvent
  | backoff (strategy : String) (attempt : Nat) (delayMs : Nat)
  | attempt (strategy : String) (attempt : Nat) (outcome : AttemptOutcome)
deriving DecidableEq

/-- The attempt loop for one strategy, starting at attempt number `attempt`
with `fuel` attempts left (the source iterates attempt in 1..=max_retries):
backoff before every attempt except the first, then the attempt, returning
early exactly on a validated success. -/
def runAttemptsFrom (env : ValidatorEnv) (strat : String) :
    Nat → Nat → Bool × List ValidatorEvent
  | _, 0 => (false, [])
  | attempt, fuel + 1 =>
    let pre : List ValidatorEvent :=
      if 1 < attempt then
        [.backoff strat attempt (env.rng (500 * attempt) (1500 * attempt))]
      else []
    let oc := attemptOutcome env strat attempt
    if oc = .validatedSuccess then (true, pre ++ [.attempt strat attempt oc])
    else
      let rest := runAttemptsFrom env strat (attempt + 1) fuel
      (rest.1, pre ++ [.attempt strat attempt oc] ++ rest.2)

/-- All attempts of one strategy: attempt numbers 1..=maxRetries. -/
def runStrategy (env : ValidatorEnv) (strat : String) (maxRetries : Nat) :
    Bool × List ValidatorEvent :=
  runAttemptsFrom env strat 1 maxRetries

/-- The outer strategy loop: a strategy that returns with success ends the
run; otherwise its events are kept and the next strategy is tried. -/
def runStrategyList (env : ValidatorEnv) (maxRetries : Nat) :
    List String → Bool × List ValidatorEvent
  | [] => (false, [])
  | s :: rest =>
    let r := runStrategy env s maxRetries
    if r.1 then r
    else
      let r2 := runStrategyList env maxRetries rest
      (r2.1, r.2 ++ r2.2)

/-- services.rs select_dropdown_with_validation: overall success flag plus
the event trace. -/
def select_dropdown_with_validation (env : ValidatorEnv) (maxRetries : Nat) :
    Bool × List ValidatorEvent :=
  runStrategyList env maxRetries strategiesList

/-- The (strategy, attempt) pairs a full run would execute, in order. -/
def validatorSchedule (maxRetries : Nat) : List (String × Nat) :=
  strategiesList.flatMap (fun s => (List.range' 1 maxRetries).map (fun n => (s, n)))

/-- The (strategy, attempt) pairs actually executed in a trace. -/
def executedAttempts (tr : List ValidatorEvent) : List (String × Nat) :=
  tr.filterMap (fun e =>
    match e with
    | .attempt s n _ => some (s, n)
    | _ => none)

/-- Validated success of one scheduled attempt. -/
def isValidatedSuccess (env : ValidatorEnv) (p : String × Nat) : Bool :=
  attemptOutcome env p.1 p.2 = .validatedSuccess

/- ### services.rs: the URL/field loops of run_automation (claim C6)

The per-URL and per-field control flow: navigation failure logs and
continues with the next URL; a field-level error or 10-second timeout logs
and continues with the next field. Navigation outcomes and per-field
outcomes are abstracted as functions of the URL and field indices; the run
is modelled as the trace of events it produces. -/

/-- Outcome of processing one field (the 10s-timeout-guarded block). -/
inductive FieldOutcome
  | completed (filled : Bool)
  | failed
  | timedOut
deriving DecidableEq

/-- Events of a run_automation run. -/
inductive RunEvent
  | navigate (urlIdx : Nat)
  | navFailed (urlIdx : Nat)
  | fieldProcessed (urlIdx fieldIdx : Nat) (filled : Bool)
  | fieldFailed (urlIdx fieldIdx : Nat)
  | fieldTimedOut (urlIdx fieldIdx : Nat)
  | urlSummary (urlIdx filledCount totalFields : Nat)
deriving DecidableEq

/-- The event logged for one field outcome. -/
def fieldEvent (i j : Nat) : FieldOutcome → RunEvent
  | .completed b => .fieldProcessed i j b
  | .failed => .fieldFailed i j
  | .timedOut => .fieldTimedOut i j

/-- Fields counted as filled on URL i (the filled_fields tally). -/
def countFilled (fieldRes : Nat → Nat → FieldOutcome) (i numFields : Nat) : Nat :=
  ((List.range numFields).filter (fun j => fieldRes i j = .completed true)).length

/-- services.rs run_automation, URL and field loops: the trace of events.
nav i is whether page.goto succeeded for URL i; fieldRes i j the outcome
of the guarded field block for field j of URL i. A failed navigation logs
and continues (the source continue); every field outcome logs and falls
through to the next field. -/
def run_automation_trace (nav : Nat → Bool) (fieldRes : Nat → Nat → FieldOutcome)
    (numUrls numFields : Nat) : List RunEvent :=
  (List.range numUrls).flatMap (fun i =>
    RunEvent.navigate i ::
      (if nav i then
        ((List.range numFields).map (fun j => fieldEvent i j (fieldRes i j))) ++
          [RunEvent.urlSummary i (countFilled fieldRes i numFields) numFields]
      else [RunEvent.navFailed i]))

/- ### field_mapping_service.rs: the Semantic Field Resolver (claims C3, C9)

The service state: the loaded site mappings (HashMap url -> mapping,
modelled as an association list) and the discovered-forms cache. The
firecrawl stub of the source is disabled (is_enabled is false and
get_smart_selectors returns an empty vector), so the dynamic-discovery
path can never produce selectors; it is still modelled. The url crate
host parse inside extract_domain is external code, abstracted as the
parseHost parameter. -/

/-- field_mapping_service.rs DiscoveredFormField (stub type). -/
structure DiscoveredFormField where
  name : String
deriving DecidableEq

/-- field_mapping_service.rs DiscoveredForm (stub type). -/
structure DiscoveredForm where
  fields : List DiscoveredFormField
deriving DecidableEq

/-- FirecrawlService::is_enabled of the stub: always false. -/
def firecrawl_is_enabled : Bool := false

/-- FirecrawlService::get_smart_selectors of the stub: always empty. -/
def get_smart_selectors (_form : DiscoveredForm) (_profile_field : String) :
    List String := []

/-- FirecrawlService::discover_form_fields of the stub: always Ok(None). -/
def discover_form_fields (_url : String) : Option DiscoveredForm := none

/-- models.rs FieldDefinition. -/
structure FieldDefinition where
  selectors : List String
  field_type : String
  required : Bool
  profile_field : Option String
  sample_values : Option (List String)
  options : Option (List String)
deriving DecidableEq

/-- models.rs EnhancedFieldMapping (the chrono timestamps are kept as
opaque strings; fields is the HashMap field_name -> FieldDefinition as an
association list). -/
structure EnhancedFieldMapping where
  id : String
  url : String
  site_name : String
  form_type : String
  fields : List (String × FieldDefinition)
  success_rate : Nat
  last_tested : String
  created_at : String
  updated_at : String
deriving DecidableEq

/-- field_mapping_service.rs FieldMappingService: loaded mappings keyed by
url, and the discovered-forms cache keyed by url. -/
structure FieldMappingService where
  mappings : List (String × EnhancedFieldMapping)
  discovered_forms : List (String × DiscoveredForm)
deriving DecidableEq

/-- field_mapping_service.rs extract_domain: the url crate host parse
(external, abstracted by parseHost), else the fallback parse: the third
slash-separated part of the url, or the url itself. -/
def extract_domain (parseHost : String → Option String) (url : String) : String :=
  match parseHost url with
  | some host => host
  | none => ((url.splitOn "/").get? 2).getD url

/-- field_mapping_service.rs get_mapping_for_url: direct url key match
first, else the first mapping whose extracted domain is contained in the
url. -/
def get_mapping_for_url (svc : FieldMappingService)
    (parseHost : String → Option String) (url : String) :
    Option EnhancedFieldMapping :=
  match alistLookup svc.mappings url with
  | some m => some m
  | none =>
    (svc.mappings.find? (fun p => strContains url (extract_domain parseHost p.1))).map
      (fun p => p.2)

/-- The first loop of get_field_selectors: the first field of the mapping
whose declared profile_field equals the looked-up profile field. -/
def find_profile_field_match (fields : List (String × FieldDefinition))
    (profile_field : String) : Option (List String) :=
  (fields.find? (fun p => p.2.profile_field = some profile_field)).map
    (fun p => p.2.selectors)

/-- field_mapping_service.rs semantic_rules, in source order. -/
def semantic_rules : List (String × List String) :=
  [("firstname", ["firstName", "first_name", "fname", "given_name"]),
   ("lastname", ["lastName", "last_name", "lname", "family_name", "surname"]),
   ("fullname", ["fullName", "full_name", "name", "display_name"]),
   ("email", ["email", "emailAddress", "email_address", "mail"]),
   ("phone", ["phoneNumber", "phone_number", "tel", "telephone", "mobile"]),
   ("address", ["address", "address1", "street", "street_address"]),
   ("city", ["city", "locality", "town"]),
   ("state", ["state", "region", "province"]),
   ("zip", ["zip", "postal_code", "postcode", "zipcode"]),
   ("company", ["company", "organization", "employer"]),
   ("password", ["password", "pwd", "pass"]),
   ("username", ["username", "user_name", "login", "user_id"])]

/-- The inner loop of find_semantic_match: the first synonym that is a
field key of the mapping gives its selectors. -/
def firstSynonymHit (fields : List (String × FieldDefinition)) :
    List String → Option (List String)
  | [] => none
  | fn :: fns =>
    match alistLookup fields fn with
    | some fd => some fd.selectors
    | none => firstSynonymHit fields fns

/-- The outer loop of find_semantic_match over the semantic rules: a rule
applies when the lowercased profile field contains the semantic root; a
rule that applies but hits no declared field falls through to later
rules. -/
def semanticScan (fields : List (String × FieldDefinition))
    (profileLower : String) : List (String × List String) → List String
  | [] => []
  | (semanticType, fieldNames) :: rest =>
    if strContains profileLower semanticType then
      match firstSynonymHit fields fieldNames with
      | some sels => sels
      | none => semanticScan fields profileLower rest
    else semanticScan fields profileLower rest

/-- field_mapping_service.rs find_semantic_match. -/
def find_semantic_match (m : EnhancedFieldMapping) (profile_field : String) :
    List String :=
  semanticScan m.fields profile_field.toLower semantic_rules

/-- field_mapping_service.rs get_dynamic_selectors: cached discovered form
first, then live discovery if the firecrawl service is enabled (with the
disabled stub this is always none; the source also caches the discovered
form, a mutation that the disabled stub makes unreachable). -/
def get_dynamic_selectors (svc : FieldMappingService) (url profile_field : String) :
    Option (List String) :=
  let cachedHit :=
    match alistLookup svc.discovered_forms url with
    | some form => get_smart_selectors form profile_field
    | none => []
  if cachedHit ≠ [] then some cachedHit
  else if firecrawl_is_enabled then
    match discover_form_fields url with
    | some form =>
      let sels := get_smart_selectors form profile_field
      if sels ≠ [] then some sels else none
    | none => none
  else none

/-- The four generic fallback selectors of get_field_selectors. -/
def fallback_selectors (profile_field : String) : List String :=
  ["input[name=\x27" ++ profile_field ++ "\x27]",
   "input[id=\x27" ++ profile_field ++ "\x27]",
   "select[name=\x27" ++ profile_field ++ "\x27]",
   "textarea[name=\x27" ++ profile_field ++ "\x27]"]

/-- The tail of get_field_selectors once the static mapping found nothing:
dynamic discovery if it yields a non-empty list, else the fallback. -/
def dynamic_or_fallback (svc : FieldMappingService) (url profile_field : String) :
    List String :=
  match get_dynamic_selectors svc url profile_field with
  | some sels => if sels ≠ [] then sels else fallback_selectors profile_field
  | none => fallback_selectors profile_field

/-- field_mapping_service.rs get_field_selectors: profile-field match,
then direct field-name lookup, then semantic match, then dynamic
discovery, then the generic fallback. -/
def get_field_selectors (svc : FieldMappingService)
    (parseHost : String → Option String) (url profile_field : String) :
    List String :=
  match get_mapping_for_url svc parseHost url with
  | some mapping =>
    match find_profile_field_match mapping.fields profile_field with
    | some sels => sels
    | none =>
      match alistLookup mapping.fields profile_field with
      | some fd => fd.selectors
      | none =>
        let sem := find_semantic_match mapping profile_field
        if sem ≠ [] then sem
        else dynamic_or_fallback svc url profile_field
  | none => dynamic_or_fallback svc url profile_field

/- ### dropdown_service.rs: the classification cache (claim C4)

SmartDropdownService keeps dropdown_cache: HashMap from the string
selector:length-of-html to DropdownAnalysis. The classification step of
analyze_and_select_dropdown checks the cache before calling the upstream
detect_dropdown_type; the upstream call is abstracted as the oracle
parameter; upstreamCalls counts its invocations. Rust String::len is the
UTF-8 byte length. -/

/-- The cache key built by analyze_and_select_dropdown:
selector, a colon, then the decimal byte length of the dropdown HTML. -/
def dropdownCacheKey (selector : String) (htmlByteLen : Nat) : String :=
  selector ++ ":" ++ Nat.repr htmlByteLen

/-- The mutable state of one SmartDropdownService instance (the cache),
instrumented with the number of upstream oracle calls made so far. -/
structure DropdownCacheState where
  cache : List (String × DropdownAnalysis)
  upstreamCalls : Nat
deriving DecidableEq

/-- A fresh service instance: empty cache, no upstream calls yet. -/
def initialCacheState : DropdownCacheState := ⟨[], 0⟩

/-- The classification step of analyze_and_select_dropdown (steps 2 and 3
of the source): serve from the cache on a key hit; otherwise call the
upstream oracle on the dropdown HTML and surrounding context, and cache a
successful analysis under the key. A failed upstream call is propagated
and caches nothing. -/
def analyze_dropdown_classification
    (oracle : String → String → Except String DropdownAnalysis)
    (st : DropdownCacheState) (selector html context : String) :
    Except String DropdownAnalysis × DropdownCacheState :=
  let key := dropdownCacheKey selector html.utf8ByteSize
  match alistLookup st.cache key with
  | some cached => (.ok cached, st)
  | none =>
    match oracle html context with
    | .ok analysis =>
      (.ok analysis,
       ⟨(key, analysis) :: st.cache, st.upstreamCalls + 1⟩)
    | .error e => (.error e, ⟨st.cache, st.upstreamCalls + 1⟩)

/-- A sequence of classification requests (selector, html, context) run
against one service instance, starting from the fresh state. -/
def runClassificationRequests
    (oracle : String → String → Except String DropdownAnalysis)
    (reqs : List (String × String × String)) : DropdownCacheState :=
  reqs.foldl
    (fun st r => (analyze_dropdown_classification oracle st r.1 r.2.1 r.2.2).2)
    initialCacheState

/- Injectivity of the cache key: required to show that a differing HTML
byte length always misses the cache. Nat.repr never contains the colon
separator and is injective; both facts are proved against the core
definitions (digitChar, toDigitsCore). -/

/-- The digits of a natural number base 10, most significant first, via
the same digit characters the core printer uses. -/
def decDigits (n : Nat) : List Char :=
  if n < 10 then [Nat.digitChar n]
  else decDigits (n / 10) ++ [Nat.digitChar (n % 10)]
decreasing_by
  exact Nat.div_lt_self (by omega) (by omega)

theorem digitChar_ne_colon (n : Nat) : Nat.digitChar n ≠ ':' := by
  by_cases h : n < 16
  · interval_cases n <;> decide
  · unfold Nat.digitChar
    rw [if_neg (by omega : ¬ n = 0), if_neg (by omega : ¬ n = 1), if_neg (by omega : ¬ n = 2),
        if_neg (by omega : ¬ n = 3), if_neg (by omega : ¬ n = 4), if_neg (by omega : ¬ n = 5),
        if_neg (by omega : ¬ n = 6), if_neg (by omega : ¬ n = 7), if_neg (by omega : ¬ n = 8),
        if_neg (by omega : ¬ n = 9), if_neg (by omega : ¬ n = 10), if_neg (by omega : ¬ n = 11),
        if_neg (by omega : ¬ n = 12), if_neg (by omega : ¬ n = 13), if_neg (by omega : ¬ n = 14),
        if_neg (by omega : ¬ n = 15)]
    decide

theorem toDigitsCore_eq_decDigits (fuel n : Nat) (acc : List Char)
    (h : n < fuel) : Nat.toDigitsCore 10 fuel n acc = decDigits n ++ acc := by
  induction fuel generalizing n acc with
  | zero => omega
  | succ fuel ih =>
    rw [Nat.toDigitsCore]
    by_cases h10 : n / 10 = 0
    · have hn : n < 10 := by omega
      simp only [h10, if_pos rfl]
      rw [decDigits, if_pos hn, Nat.mod_eq_of_lt hn]
      simp
    · have hfuel : n / 10 < fuel := by omega
      simp only [if_neg h10]
      rw [ih (n / 10) (Nat.digitChar (n % 10) :: acc) hfuel]
      have hstep : decDigits n = decDigits (n / 10) ++ [Nat.digitChar (n % 10)] := by
        rw [decDigits]
        rw [if_neg (by omega : ¬ n < 10)]
      rw [hstep]
      simp

theorem toDigits_eq_decDigits (n : Nat) : Nat.toDigits 10 n = decDigits n :=
  (toDigitsCore_eq_decDigits (n + 1) n [] (Nat.lt_succ_self n)).trans (by simp)

theorem decDigits_ne_colon (n : Nat) : ∀ c ∈ decDigits n, c ≠ ':' := by
  induction n using decDigits.induct with
  | case1 n h =>
    rw [decDigits, if_pos h]
    intro c hc
    simp at hc
    subst hc
    exact digitChar_ne_colon n
  | case2 n h ih =>
    rw [decDigits, if_neg h]
    intro c hc
    rcases List.mem_append.mp hc with hl | hr
    · exact ih c hl
    · simp at hr
      subst hr
      exact digitChar_ne_colon (n % 10)

/-- Value of a digit character. -/
def digitVal (c : Char) : Nat := c.toNat - 48

theorem digitVal_digitChar (n : Nat) (h : n < 10) :
    digitVal (Nat.digitChar n) = n := by
  interval_cases n <;> decide

/-- Reading a most-significant-first digit list back as a number. -/
def digitsVal (l : List Char) : Nat :=
  l.foldl (fun acc c => 10 * acc + digitVal c) 0

theorem digitsVal_decDigits (n : Nat) : digitsVal (decDigits n) = n := by
  induction n using decDigits.induct with
  | case1 n h =>
    rw [decDigits, if_pos h]
    simp [digitsVal, digitVal_digitChar n h]
  | case2 n h ih =>
    rw [decDigits, if_neg h]
    unfold digitsVal at ih ⊢
    rw [List.foldl_append, ih]
    simp [digitVal_digitChar (n % 10) (Nat.mod_lt _ (by omega))]
    have := Nat.div_add_mod n 10
    omega

theorem decDigits_injective (m n : Nat) (h : decDigits m = decDigits n) :
    m = n := by
  have hm := digitsVal_decDigits m
  rw [h, digitsVal_decDigits n] at hm
  omega

theorem natRepr_injective (m n : Nat) (h : Nat.repr m = Nat.repr n) : m = n := by
  apply decDigits_injective
  rw [← toDigits_eq_decDigits, ← toDigits_eq_decDigits]
  have : (Nat.toDigits 10 m).asString = (Nat.toDigits 10 n).asString := h
  have hd := congrArg String.data this
  simpa [List.asString] using hd

theorem natRepr_ne_colon (n : Nat) : ∀ c ∈ (Nat.repr n).data, c ≠ ':' := by
  intro c hc
  have : (Nat.repr n).data = decDigits n := by
    show (Nat.toDigits 10 n).asString.data = decDigits n
    simp [List.asString, toDigits_eq_decDigits]
  rw [this] at hc
  exact decDigits_ne_colon n c hc

/-- Splitting a list at a separator character that occurs in neither right
part is unambiguous. -/
theorem append_sep_inj {l1 l2 r1 r2 : List Char} {c : Char}
    (hc1 : c ∉ r1) (hc2 : c ∉ r2) (h : l1 ++ c :: r1 = l2 ++ c :: r2) :
    l1 = l2 ∧ r1 = r2 := by
  induction l1 generalizing l2 with
  | nil =>
    cases l2 with
    | nil => simpa using h
    | cons x xs =>
      simp at h
      obtain ⟨hx, hr⟩ := h
      exfalso
      apply hc1
      rw [hr]
      exact List.mem_append_right xs (by simp [hx])
  | cons y ys ih =>
    cases l2 with
    | nil =>
      simp at h
      obtain ⟨hy, hr⟩ := h
      exfalso
      apply hc2
      rw [← hr]
      exact List.mem_append_right ys (by simp [hy])
    | cons x xs =>
      simp at h
      obtain ⟨hyx, hrest⟩ := h
      obtain ⟨hl, hr⟩ := ih hrest
      exact ⟨by rw [hyx, hl], hr⟩

theorem dropdownCacheKey_injective (s1 s2 : String) (n1 n2 : Nat)
    (h : dropdownCacheKey s1 n1 = dropdownCacheKey s2 n2) :
    s1 = s2 ∧ n1 = n2 := by
  have hd := congrArg String.data h
  have e1 : (dropdownCacheKey s1 n1).data = s1.data ++ ':' :: (Nat.repr n1).data := by
    simp [dropdownCacheKey]
  have e2 : (dropdownCacheKey s2 n2).data = s2.data ++ ':' :: (Nat.repr n2).data := by
    simp [dropdownCacheKey]
  rw [e1, e2] at hd
  have hsplit := append_sep_inj
    (fun hmem => natRepr_ne_colon n1 ':' hmem rfl)
    (fun hmem => natRepr_ne_colon n2 ':' hmem rfl) hd
  exact ⟨String.ext hsplit.1, natRepr_injective n1 n2 (String.ext hsplit.2)⟩

/-- A concrete validator environment for evaluating the model: every
selection attempt reports failure and the generator returns the lower
bound of the requested range. -/
def envAllFail : ValidatorEnv :=
  ⟨fun _ _ => false, fun _ _ => none, fun lo _ => lo⟩

/-- A concrete field definition for evaluating the resolver: the email
field, linked to profile field email. -/
def fdEmailW : FieldDefinition :=
  ⟨["#email-sel", "input[name=\x27email\x27]"], "email", true, some "email", none, none⟩

/-- A concrete decoy field definition linked to a different profile
field. -/
def fdDecoyW : FieldDefinition :=
  ⟨["#decoy"], "text", false, some "other", none, none⟩

/-- A concrete site mapping declaring the decoy field before the email
field. -/
def mappingW : EnhancedFieldMapping :=
  ⟨"w1", "https://example.com/form", "Example", "test",
   [("decoy", fdDecoyW), ("email", fdEmailW)], 100, "2025-09-09", "t0", "t0"⟩

/-- A concrete resolver state holding one site mapping. -/
def svcW : FieldMappingService :=
  ⟨[("https://example.com/form", mappingW)], []⟩

/-- A concrete dropdown analysis for evaluating the classification
cache. -/
def analysisW : DropdownAnalysis :=
  ⟨.StandardSelect, .DirectSelect, none, none, false, false, 1, "w"⟩

/-- A concrete oracle that always classifies successfully. -/
def oracleW : String → String → Except String DropdownAnalysis :=
  fun _ _ => .ok analysisW

/-- A concrete earlier request log for the classification cache. -/
def reqsW : List (String × String × String) := [("s", "ab", "")]

/- ## Theorems -/

theorem exceptIsOk_ok {e a : Type} (x : a) :
    exceptIsOk (Except.ok x : Except e a) = true := rfl

theorem exceptIsOk_error {e a : Type} (x : e) :
    exceptIsOk (Except.error x : Except e a) = false := rfl

/-- Claim C1: for every invocation of the MultiStep handler, the attempted
strategies exclude MultiStep itself and follow the fixed order ClickToOpen,
TypeToSearch, KeyboardNavigation, DirectSelect; the attempted list is the
failing prefix plus the first succeeding strategy (so the handler returns
as soon as one strategy succeeds and attempts nothing further), and the
handler succeeds exactly when some strategy of the order succeeds, hence
fails only after all four have failed (in which case all four appear in
the attempted list). -/
theorem multi_step_tries_others_in_order_until_success
    (fieldName : String) (exec : InteractionStrategy → Except String Unit) :
    InteractionStrategy.MultiStep ∉ (execute_multi_step fieldName exec).2 ∧
    (execute_multi_step fieldName exec).2 <+: multiStepOrder ∧
    (execute_multi_step fieldName exec).2 =
      multiStepOrder.takeWhile (fun s => !exceptIsOk (exec s)) ++
        (multiStepOrder.drop
          (multiStepOrder.takeWhile (fun s => !exceptIsOk (exec s))).length).take 1 ∧
    exceptIsOk (execute_multi_step fieldName exec).1 =
      multiStepOrder.any (fun s => exceptIsOk (exec s)) := by
  cases h1 : exceptIsOk (exec .ClickToOpen) <;>
  cases h2 : exceptIsOk (exec .TypeToSearch) <;>
  cases h3 : exceptIsOk (exec .KeyboardNavigation) <;>
  cases h4 : exceptIsOk (exec .DirectSelect) <;>
    simp [execute_multi_step, runMultiStepStrategies, multiStepOrder,
      exceptIsOk_error, h1, h2, h3, h4]

/-- Claim C7 (code bug): the KeyboardNavigation handler is claimed to type
the first character of every non-empty value. For an ASCII-leading value
such as "US" it indeed focuses, sends Space, waits 200ms, types the first
character, waits 300ms and sends Enter; but for a value whose first
character is multi-byte UTF-8, such as "é", the source slices the first
BYTE of the value, which is not a character boundary, so the handler
panics (modelled as none) instead of completing. -/
theorem keyboard_navigation_panics_on_multibyte_first_char :
    execute_keyboard_navigation "US" =
      some [KbdEvent.focus, KbdEvent.key "Space", KbdEvent.sleepMs 200,
        KbdEvent.typeChars "U", KbdEvent.sleepMs 300, KbdEvent.key "Enter"] ∧
    execute_keyboard_navigation "é" = none ∧
    execute_keyboard_navigation "" =
      some [KbdEvent.focus, KbdEvent.key "Space", KbdEvent.sleepMs 200,
        KbdEvent.key "Enter"] := by
  refine ⟨?_, ?_, ?_⟩ <;> rfl

/-- Claim C5: the orchestrator treats a candidate selector as dropdown-like
exactly when the selector string contains one of the four substrings; a
dropdown-like selector is attempted on the AI dropdown path first, the
legacy validator with max_retries 3 runs exactly when the AI path errored,
failure recovery runs exactly when the validator then also failed, the
steps always follow that order, and the selector succeeds exactly when the
AI path or the validator succeeded; a non-dropdown-like selector is
attempted as a single plain fill with a 5-second timeout whose outcome is
the selector outcome. -/
theorem selector_dispatch_order_and_classification
    (aiOk valOk recOk fillOk : Bool) (selector : String) :
    (isDropdownSelector selector = true ↔
      (strContains selector "select[" = true ∨ strContains selector "dropdown" = true ∨
       strContains selector "combobox" = true ∨ strContains selector "listbox" = true)) ∧
    (isDropdownSelector selector = true →
      (selector_fill_dispatch aiOk valOk recOk fillOk selector).2.head? =
          some FillStep.aiDropdown ∧
      ((selector_fill_dispatch aiOk valOk recOk fillOk selector).2 = [FillStep.aiDropdown] ∨
       (selector_fill_dispatch aiOk valOk recOk fillOk selector).2 =
          [FillStep.aiDropdown, FillStep.legacyValidator 3] ∨
       (selector_fill_dispatch aiOk valOk recOk fillOk selector).2 =
          [FillStep.aiDropdown, FillStep.legacyValidator 3, FillStep.failureRecovery]) ∧
      (FillStep.legacyValidator 3 ∈ (selector_fill_dispatch aiOk valOk recOk fillOk selector).2 ↔
        aiOk = false) ∧
      (FillStep.failureRecovery ∈ (selector_fill_dispatch aiOk valOk recOk fillOk selector).2 ↔
        (aiOk = false ∧ valOk = false)) ∧
      ((selector_fill_dispatch aiOk valOk recOk fillOk selector).1 = true ↔
        (aiOk = true ∨ valOk = true))) ∧
    (isDropdownSelector selector = false →
      (selector_fill_dispatch aiOk valOk recOk fillOk selector).2 = [FillStep.plainFill 5] ∧
      (selector_fill_dispatch aiOk valOk recOk fillOk selector).1 = fillOk) := by
  refine ⟨by simp [isDropdownSelector]; tauto, ?_, ?_⟩ <;>
    intro hd <;>
    cases aiOk <;> cases valOk <;>
      simp [selector_fill_dispatch, hd]

/-- Claim C10: validation reads only the value attribute of the currently
selected option and compares it for exact string equality with the target:
validation reports valid exactly when the element exists, is a select, has
a selected option, and that option carries value equal to the expected
string; in particular a selected option whose text equals the target but
whose value differs, a non-select element, and a select with no selected
option are all reported not valid. -/
theorem validation_compares_selected_option_value_only
    (el : Option DomSelect) (expected : String) :
    (validate_dropdown_selection el expected = true ↔
      ∃ e opt, el = some e ∧ e.tagName.toLower = "select" ∧
        selectedOption e = some opt ∧ opt.value = expected) ∧
    (∀ e opt, el = some e → selectedOption e = some opt →
      opt.text = expected → opt.value ≠ expected →
      validate_dropdown_selection el expected = false) ∧
    (∀ e, el = some e → e.tagName.toLower ≠ "select" →
      validate_dropdown_selection el expected = false) ∧
    (∀ e, el = some e → selectedOption e = none →
      validate_dropdown_selection el expected = false) := by
  refine ⟨?_, ?_, ?_, ?_⟩
  · constructor
    · intro hv
      rcases el with _ | e
      · simp [validate_dropdown_selection, currentSelectedValue] at hv
      · by_cases htag : e.tagName.toLower = "select"
        · rcases hopt : selectedOption e with _ | opt
          · simp [validate_dropdown_selection, currentSelectedValue, htag, hopt] at hv
          · refine ⟨e, opt, rfl, htag, hopt, ?_⟩
            simp [validate_dropdown_selection, currentSelectedValue, htag, hopt] at hv
            exact hv
        · simp [validate_dropdown_selection, currentSelectedValue, htag] at hv
    · rintro ⟨e, opt, rfl, htag, hopt, hval⟩
      simp [validate_dropdown_selection, currentSelectedValue, htag, hopt, hval]
  · rintro e opt rfl hopt _ hne
    by_cases htag : e.tagName.toLower = "select"
    · simp [validate_dropdown_selection, currentSelectedValue, htag, hopt, hne]
    · simp [validate_dropdown_selection, currentSelectedValue, htag]
  · rintro e rfl htag
    simp [validate_dropdown_selection, currentSelectedValue, htag]
  · rintro e rfl hopt
    by_cases htag : e.tagName.toLower = "select"
    · simp [validate_dropdown_selection, currentSelectedValue, htag, hopt]
    · simp [validate_dropdown_selection, currentSelectedValue, htag]

/-- Claim C6: field-level and URL-level errors never abort the run. Every
URL index gets its navigation attempted, whatever the navigation and field
outcomes of earlier URLs; a failed navigation is logged (navFailed) and
the remaining URLs are still attempted; for a URL that navigated, every
field index is processed whatever the outcomes (including errors and
timeouts) of earlier fields, each outcome is logged, and the per-URL
summary is still produced. -/
theorem run_continues_past_field_and_url_failures
    (nav : Nat → Bool) (fieldRes : Nat → Nat → FieldOutcome) (numUrls numFields : Nat) :
    (∀ i, i < numUrls →
      RunEvent.navigate i ∈ run_automation_trace nav fieldRes numUrls numFields) ∧
    (∀ i, i < numUrls → nav i = false →
      RunEvent.navFailed i ∈ run_automation_trace nav fieldRes numUrls numFields) ∧
    (∀ i j, i < numUrls → nav i = true → j < numFields →
      fieldEvent i j (fieldRes i j) ∈ run_automation_trace nav fieldRes numUrls numFields) ∧
    (∀ i, i < numUrls → nav i = true →
      RunEvent.urlSummary i (countFilled fieldRes i numFields) numFields ∈
        run_automation_trace nav fieldRes numUrls numFields) := by
  refine ⟨?_, ?_, ?_, ?_⟩
  · intro i hi
    exact List.mem_flatMap_of_mem (List.mem_range.mpr hi) (List.mem_cons_self _ _)
  · intro i hi hnav
    refine List.mem_flatMap_of_mem (List.mem_range.mpr hi) ?_
    simp [hnav]
  · intro i j hi hnav hj
    refine List.mem_flatMap_of_mem (List.mem_range.mpr hi) ?_
    apply List.mem_cons_of_mem
    rw [if_pos hnav]
    exact List.mem_append_left _ (List.mem_map_of_mem _ (List.mem_range.mpr hj))
  · intro i hi hnav
    refine List.mem_flatMap_of_mem (List.mem_range.mpr hi) ?_
    apply List.mem_cons_of_mem
    rw [if_pos hnav]
    exact List.mem_append_right _ (List.mem_singleton.mpr rfl)

theorem executedAttempts_append (t1 t2 : List ValidatorEvent) :
    executedAttempts (t1 ++ t2) = executedAttempts t1 ++ executedAttempts t2 := by
  simp [executedAttempts, List.filterMap_append]

theorem executedAttempts_pre (s : String) (a d : Nat) :
    executedAttempts (if 1 < a then [ValidatorEvent.backoff s a d] else []) = [] := by
  split <;> rfl

theorem runAttemptsFrom_spec (env : ValidatorEnv) (s : String) :
    ∀ (fuel a : Nat),
    ((((List.range' a fuel).map (fun n => (s, n))).findIdx? (isValidatedSuccess env) = none →
        (runAttemptsFrom env s a fuel).1 = false ∧
        executedAttempts (runAttemptsFrom env s a fuel).2 =
          (List.range' a fuel).map (fun n => (s, n))) ∧
     (∀ i, ((List.range' a fuel).map (fun n => (s, n))).findIdx? (isValidatedSuccess env) = some i →
        (runAttemptsFrom env s a fuel).1 = true ∧
        executedAttempts (runAttemptsFrom env s a fuel).2 =
          ((List.range' a fuel).map (fun n => (s, n))).take (i + 1))) := by
  intro fuel
  induction fuel with
  | zero =>
    intro a
    constructor
    · intro _
      simp [runAttemptsFrom, executedAttempts]
    · intro i hi
      simp at hi
  | succ fuel ih =>
    intro a
    have hrange : List.range' a (fuel + 1) = a :: List.range' (a + 1) fuel := rfl
    by_cases hval : attemptOutcome env s a = .validatedSuccess
    · have hb : isValidatedSuccess env (s, a) = true := by
        simp only [isValidatedSuccess, decide_eq_true_eq]
        exact hval
      have hrunS : runAttemptsFrom env s a (fuel + 1) =
          (true, (if 1 < a then
              [ValidatorEvent.backoff s a (env.rng (500 * a) (1500 * a))] else []) ++
            [ValidatorEvent.attempt s a (attemptOutcome env s a)]) := by
        rw [runAttemptsFrom]
        simp [hval]
      constructor
      · intro hnone
        rw [hrange] at hnone
        simp [hb] at hnone
      · intro i hi
        rw [hrange] at hi
        simp [hb] at hi
        have hi0 : i = 0 := hi.symm
        subst hi0
        rw [hrunS]
        refine ⟨rfl, ?_⟩
        rw [executedAttempts_append, executedAttempts_pre]
        rw [hrange]
        simp [executedAttempts]
    · have hb : isValidatedSuccess env (s, a) = false := by
        simp only [isValidatedSuccess, decide_eq_false_iff_not]
        exact hval
      have hrun : runAttemptsFrom env s a (fuel + 1) =
          ((runAttemptsFrom env s (a + 1) fuel).1,
            (if 1 < a then
              [ValidatorEvent.backoff s a (env.rng (500 * a) (1500 * a))] else []) ++
            [ValidatorEvent.attempt s a (attemptOutcome env s a)] ++
            (runAttemptsFrom env s (a + 1) fuel).2) := by
        rw [runAttemptsFrom]
        simp [hval]
      constructor
      · intro hnone
        rw [hrange] at hnone
        simp only [List.map_cons, List.findIdx?_cons, hb, Bool.false_eq_true, if_false,
          List.findIdx?_start_succ, Option.map_eq_none'] at hnone
        obtain ⟨hf, he⟩ := (ih (a + 1)).1 hnone
        rw [hrun]
        refine ⟨hf, ?_⟩
        rw [executedAttempts_append, executedAttempts_append, executedAttempts_pre, he]
        rw [hrange]
        simp [executedAttempts]
      · intro i hi
        rw [hrange] at hi
        simp only [List.map_cons, List.findIdx?_cons, hb, Bool.false_eq_true, if_false,
          List.findIdx?_start_succ, Option.map_eq_some'] at hi
        rcases hi with ⟨j, hj, hji⟩
        obtain ⟨hf, he⟩ := ((ih (a + 1)).2 j) hj
        subst hji
        rw [hrun]
        refine ⟨hf, ?_⟩
        rw [executedAttempts_append, executedAttempts_append, executedAttempts_pre, he]
        rw [hrange]
        simp [executedAttempts, List.take_succ_cons]

theorem runStrategyList_spec (env : ValidatorEnv) (maxRetries : Nat) :
    ∀ strats : List String,
    ((strats.flatMap (fun s => (List.range' 1 maxRetries).map (fun n => (s, n)))).findIdx?
        (isValidatedSuccess env) = none →
      (runStrategyList env maxRetries strats).1 = false ∧
      executedAttempts (runStrategyList env maxRetries strats).2 =
        strats.flatMap (fun s => (List.range' 1 maxRetries).map (fun n => (s, n)))) ∧
    (∀ i, (strats.flatMap (fun s => (List.range' 1 maxRetries).map (fun n => (s, n)))).findIdx?
        (isValidatedSuccess env) = some i →
      (runStrategyList env maxRetries strats).1 = true ∧
      executedAttempts (runStrategyList env maxRetries strats).2 =
        (strats.flatMap (fun s => (List.range' 1 maxRetries).map (fun n => (s, n)))).take (i + 1)) := by
  intro strats
  induction strats with
  | nil =>
    constructor
    · intro _
      simp [runStrategyList, executedAttempts]
    · intro i hi
      simp at hi
  | cons s rest ih =>
    have hflat : (s :: rest).flatMap (fun s => (List.range' 1 maxRetries).map (fun n => (s, n))) =
        (List.range' 1 maxRetries).map (fun n => (s, n)) ++
          rest.flatMap (fun s => (List.range' 1 maxRetries).map (fun n => (s, n))) := by
      simp
    cases hfs : ((List.range' 1 maxRetries).map (fun n => (s, n))).findIdx?
        (isValidatedSuccess env) with
    | some j =>
      obtain ⟨hf, he⟩ := ((runAttemptsFrom_spec env s maxRetries 1).2 j) hfs
      have hlen : j < ((List.range' 1 maxRetries).map (fun n => (s, n))).length :=
        (List.findIdx?_eq_some_iff_findIdx_eq.mp hfs).1
      have hrun : runStrategyList env maxRetries (s :: rest) =
          runAttemptsFrom env s 1 maxRetries := by
        rw [runStrategyList]
        simp [runStrategy, hf]
      constructor
      · intro hnone
        rw [hflat] at hnone
        simp [hfs] at hnone
      · intro i hi
        rw [hflat] at hi
        rw [List.findIdx?_append, hfs] at hi
        simp only [Option.or_some, Option.some.injEq] at hi
        subst hi
        rw [hrun]
        refine ⟨hf, ?_⟩
        rw [he, hflat]
        rw [List.take_append_of_le_length (by omega)]
    | none =>
      obtain ⟨hf, he⟩ := (runAttemptsFrom_spec env s maxRetries 1).1 hfs
      have hrun : runStrategyList env maxRetries (s :: rest) =
          ((runStrategyList env maxRetries rest).1,
            (runAttemptsFrom env s 1 maxRetries).2 ++
              (runStrategyList env maxRetries rest).2) := by
        rw [runStrategyList]
        simp [runStrategy, hf]
      constructor
      · intro hnone
        rw [hflat] at hnone
        rw [List.findIdx?_append, hfs] at hnone
        simp only [Option.none_or, Option.map_eq_none'] at hnone
        obtain ⟨hf2, he2⟩ := ih.1 hnone
        rw [hrun]
        refine ⟨hf2, ?_⟩
        rw [executedAttempts_append, he, he2, hflat]
      · intro i hi
        rw [hflat] at hi
        rw [List.findIdx?_append, hfs] at hi
        simp only [Option.none_or, Option.map_eq_some'] at hi
        rcases hi with ⟨k, hk, hki⟩
        obtain ⟨hf2, he2⟩ := ih.2 k hk
        rw [hrun]
        refine ⟨hf2, ?_⟩
        rw [executedAttempts_append, he, he2, hflat]
        have harith : i + 1 =
            ((List.range' 1 maxRetries).map (fun n => (s, n))).length + (k + 1) := by
          omega
        rw [harith, List.take_append]

/-- Claim C2: in the Selection Validator, an attempt that reports success
but fails post-action validation never ends the retry loop early. An
attempt is a validated success only if the selection call reports success
and the re-read value matches; the executed attempts are exactly the full
fixed schedule (both strategies, attempts 1..max_retries each) when no
attempt is a validated success (and the run fails), and exactly the
schedule up to and including the first validated success when one exists
(and the run succeeds) - so the loop exits early only at a validated
success. -/
theorem validated_success_required_to_exit_early (env : ValidatorEnv) (maxRetries : Nat) :
    (∀ st n, env.attemptOk st n = true → env.validation st n ≠ some true →
      isValidatedSuccess env (st, n) = false) ∧
    ((validatorSchedule maxRetries).findIdx? (isValidatedSuccess env) = none →
      (select_dropdown_with_validation env maxRetries).1 = false ∧
      executedAttempts (select_dropdown_with_validation env maxRetries).2 =
        validatorSchedule maxRetries) ∧
    (∀ i, (validatorSchedule maxRetries).findIdx? (isValidatedSuccess env) = some i →
      (select_dropdown_with_validation env maxRetries).1 = true ∧
      executedAttempts (select_dropdown_with_validation env maxRetries).2 =
        (validatorSchedule maxRetries).take (i + 1)) := by
  refine ⟨?_, (runStrategyList_spec env maxRetries strategiesList).1,
    (runStrategyList_spec env maxRetries strategiesList).2⟩
  intro st n hok hval
  simp only [isValidatedSuccess, attemptOutcome, hok, if_pos, decide_eq_false_iff_not]
  cases hv : env.validation st n with
  | none => simp
  | some b =>
    cases b with
    | false => simp
    | true => exact absurd hv hval

theorem runAttemptsFrom_backoff (env : ValidatorEnv) (s : String) :
    ∀ (fuel a : Nat) (str : String) (n d : Nat),
    ValidatorEvent.backoff str n d ∈ (runAttemptsFrom env s a fuel).2 →
    str = s ∧ 1 < n ∧ d = env.rng (500 * n) (1500 * n) := by
  intro fuel
  induction fuel with
  | zero =>
    intro a str n d hmem
    simp [runAttemptsFrom] at hmem
  | succ fuel ih =>
    intro a str n d hmem
    rw [runAttemptsFrom] at hmem
    by_cases hval : attemptOutcome env s a = .validatedSuccess
    · simp only [hval, if_pos] at hmem
      rcases List.mem_append.mp hmem with hpre | hattempt
      · by_cases ha : 1 < a
        · rw [if_pos ha] at hpre
          simp at hpre
          obtain ⟨h1, h2, h3⟩ := hpre
          subst h1
          subst h2
          exact ⟨rfl, ha, h3⟩
        · rw [if_neg ha] at hpre
          simp at hpre
      · simp at hattempt
    · simp only [if_neg hval] at hmem
      rcases List.mem_append.mp hmem with hpre2 | hrest
      · rcases List.mem_append.mp hpre2 with hpre | hattempt
        · by_cases ha : 1 < a
          · rw [if_pos ha] at hpre
            simp at hpre
            obtain ⟨h1, h2, h3⟩ := hpre
            subst h1
            subst h2
            exact ⟨rfl, ha, h3⟩
          · rw [if_neg ha] at hpre
            simp at hpre
        · simp at hattempt
      · exact ih (a + 1) str n d hrest

theorem runStrategyList_backoff (env : ValidatorEnv) (maxRetries : Nat) :
    ∀ (strats : List String) (str : String) (n d : Nat),
    ValidatorEvent.backoff str n d ∈ (runStrategyList env maxRetries strats).2 →
    1 < n ∧ d = env.rng (500 * n) (1500 * n) := by
  intro strats
  induction strats with
  | nil =>
    intro str n d hmem
    simp [runStrategyList] at hmem
  | cons s rest ih =>
    intro str n d hmem
    rw [runStrategyList] at hmem
    by_cases hs : (runStrategy env s maxRetries).1
    · simp only [hs, if_pos] at hmem
      have := runAttemptsFrom_backoff env s maxRetries 1 str n d hmem
      exact ⟨this.2.1, this.2.2⟩
    · simp only [hs, if_neg, Bool.false_eq_true] at hmem
      rcases List.mem_append.mp hmem with hleft | hright
      · have := runAttemptsFrom_backoff env s maxRetries 1 str n d hleft
        exact ⟨this.2.1, this.2.2⟩
      · exact ih str n d hright

/-- Claim C8: every backoff delay inserted by the Selection Validator
belongs to an attempt number n with n at least 2 (so no backoff precedes
the first attempt of either strategy), and, provided the generator behind
human_delay_ms returns a value inside the requested inclusive range, the
delay lies in the closed interval [500n, 1500n] milliseconds. -/
theorem backoff_delay_within_interval (env : ValidatorEnv) (maxRetries : Nat)
    (hrng : ∀ lo hi, lo ≤ hi → lo ≤ env.rng lo hi ∧ env.rng lo hi ≤ hi) :
    ∀ (str : String) (n d : Nat),
    ValidatorEvent.backoff str n d ∈ (select_dropdown_with_validation env maxRetries).2 →
    2 ≤ n ∧ 500 * n ≤ d ∧ d ≤ 1500 * n := by
  intro str n d hmem
  obtain ⟨hn, hd⟩ := runStrategyList_backoff env maxRetries strategiesList str n d hmem
  have hle : 500 * n ≤ 1500 * n := by omega
  obtain ⟨h1, h2⟩ := hrng (500 * n) (1500 * n) hle
  subst hd
  exact ⟨by omega, h1, h2⟩

/-- Witness for claim C8 at a concrete environment: with two retries and a
lower-bound generator, the run contains the backoff before attempt 2 of
the first strategy, whose 1000 ms delay lies within [1000, 3000]. -/
theorem backoff_delay_within_interval_witness :
    2 ≤ 2 ∧ 500 * 2 ≤ 1000 ∧ 1000 ≤ 1500 * 2 :=
  backoff_delay_within_interval envAllFail 2
    (fun lo _ h => ⟨Nat.le_refl lo, h⟩)
    "JavaScript DOM Manipulation" 2 1000 (by decide)

theorem alistLookup_mem {α : Type} (l : List (String × α)) (key : String) (v : α)
    (h : alistLookup l key = some v) : (key, v) ∈ l := by
  induction l with
  | nil => simp [alistLookup] at h
  | cons p rest ih =>
    rcases p with ⟨k, w⟩
    rw [alistLookup] at h
    by_cases hk : k = key
    · rw [if_pos hk] at h
      simp only [Option.some.injEq] at h
      subst hk
      subst h
      exact List.mem_cons_self _ _
    · rw [if_neg hk] at h
      exact List.mem_cons_of_mem _ (ih h)

theorem get_dynamic_selectors_none (svc : FieldMappingService) (url profile_field : String) :
    get_dynamic_selectors svc url profile_field = none := by
  unfold get_dynamic_selectors
  cases alistLookup svc.discovered_forms url <;>
    simp [get_smart_selectors, firecrawl_is_enabled]

theorem dynamic_or_fallback_eq (svc : FieldMappingService) (url profile_field : String) :
    dynamic_or_fallback svc url profile_field = fallback_selectors profile_field := by
  unfold dynamic_or_fallback
  rw [get_dynamic_selectors_none]

theorem get_mapping_for_url_mem (svc : FieldMappingService)
    (parseHost : String → Option String) (url : String) (m : EnhancedFieldMapping)
    (h : get_mapping_for_url svc parseHost url = some m) : ∃ u, (u, m) ∈ svc.mappings := by
  unfold get_mapping_for_url at h
  cases hl : alistLookup svc.mappings url with
  | some m2 =>
    rw [hl] at h
    have hm2 : m2 = m := by simpa using h
    subst hm2
    exact ⟨url, alistLookup_mem _ _ _ hl⟩
  | none =>
    rw [hl] at h
    cases hf : svc.mappings.find?
        (fun p => strContains url (extract_domain parseHost p.1)) with
    | none => rw [hf] at h; simp at h
    | some p =>
      rw [hf] at h
      simp at h
      exact ⟨p.1, h ▸ List.mem_of_find?_eq_some hf⟩

theorem get_field_selectors_of_none (svc : FieldMappingService)
    (parseHost : String → Option String) (url profile_field : String)
    (hm : get_mapping_for_url svc parseHost url = none) :
    get_field_selectors svc parseHost url profile_field =
      dynamic_or_fallback svc url profile_field := by
  unfold get_field_selectors
  rw [hm]

theorem get_field_selectors_of_some (svc : FieldMappingService)
    (parseHost : String → Option String) (url profile_field : String)
    (m : EnhancedFieldMapping)
    (hm : get_mapping_for_url svc parseHost url = some m) :
    get_field_selectors svc parseHost url profile_field =
      (match find_profile_field_match m.fields profile_field with
       | some sels => sels
       | none =>
         match alistLookup m.fields profile_field with
         | some fd => fd.selectors
         | none =>
           if find_semantic_match m profile_field ≠ [] then
             find_semantic_match m profile_field
           else dynamic_or_fallback svc url profile_field) := by
  unfold get_field_selectors
  rw [hm]

/-- Claim C3: for every service state whose mappings declare only
non-empty selector lists (the data-model invariant), every URL and every
logical field name, the resolver returns a non-empty selector list; it is
a total function (no error is ever raised), the fallback is exactly the
four generic attribute-based selectors, and when no mapping is matched,
or a matched mapping yields no profile-field, field-name or semantic
match (dynamic discovery being disabled in this source), the result is
exactly that fallback list. -/
theorem resolver_always_returns_nonempty_selectors
    (svc : FieldMappingService) (parseHost : String → Option String)
    (url profile_field : String)
    (hWF : ∀ u m, (u, m) ∈ svc.mappings → ∀ name fd, (name, fd) ∈ m.fields →
      fd.selectors ≠ []) :
    get_field_selectors svc parseHost url profile_field ≠ [] ∧
    fallback_selectors profile_field =
      ["input[name=\x27" ++ profile_field ++ "\x27]",
       "input[id=\x27" ++ profile_field ++ "\x27]",
       "select[name=\x27" ++ profile_field ++ "\x27]",
       "textarea[name=\x27" ++ profile_field ++ "\x27]"] ∧
    (get_mapping_for_url svc parseHost url = none →
      get_field_selectors svc parseHost url profile_field =
        fallback_selectors profile_field) ∧
    (∀ m, get_mapping_for_url svc parseHost url = some m →
      find_profile_field_match m.fields profile_field = none →
      alistLookup m.fields profile_field = none →
      find_semantic_match m profile_field = [] →
      get_field_selectors svc parseHost url profile_field =
        fallback_selectors profile_field) := by
  refine ⟨?_, rfl, ?_, ?_⟩
  · cases hm : get_mapping_for_url svc parseHost url with
    | none =>
      rw [get_field_selectors_of_none svc parseHost url profile_field hm,
        dynamic_or_fallback_eq]
      simp [fallback_selectors]
    | some m =>
      obtain ⟨u, hu⟩ := get_mapping_for_url_mem svc parseHost url m hm
      rw [get_field_selectors_of_some svc parseHost url profile_field m hm]
      cases hpf : find_profile_field_match m.fields profile_field with
      | some sels =>
        unfold find_profile_field_match at hpf
        cases hfind : m.fields.find?
            (fun p => p.2.profile_field = some profile_field) with
        | none => rw [hfind] at hpf; simp at hpf
        | some q =>
          rw [hfind] at hpf
          have hpf2 : q.2.selectors = sels := by simpa using hpf
          have hqmem := List.mem_of_find?_eq_some hfind
          have hne := hWF u m hu q.1 q.2 (by simpa using hqmem)
          rw [← hpf2]
          exact hne
      | none =>
        cases hlk : alistLookup m.fields profile_field with
        | some fd =>
          exact hWF u m hu profile_field fd (alistLookup_mem _ _ _ hlk)
        | none =>
          by_cases hsem : find_semantic_match m profile_field = []
          · rw [if_neg (by simpa using hsem), dynamic_or_fallback_eq]
            simp [fallback_selectors]
          · rw [if_pos (by simpa using hsem)]
            exact hsem
  · intro hm
    rw [get_field_selectors_of_none svc parseHost url profile_field hm,
      dynamic_or_fallback_eq]
  · intro m hm hpf hlk hsem
    rw [get_field_selectors_of_some svc parseHost url profile_field m hm, hpf, hlk]
    rw [if_neg (by simpa using hsem), dynamic_or_fallback_eq]

/-- Witness for claim C3 at a concrete state: with no loaded mappings (the
invariant holds vacuously) the resolver still returns a non-empty list. -/
theorem resolver_always_returns_nonempty_selectors_witness :
    get_field_selectors ⟨[], []⟩ (fun _ => none) "https://example.com" "email" ≠ [] :=
  (resolver_always_returns_nonempty_selectors ⟨[], []⟩ (fun _ => none)
    "https://example.com" "email" (by intro u m h; simp at h)).1

/-- Claim C9: when the matched mapping declares a field named email whose
linked profile field is email (and no other field of that mapping links to
profile field email), resolving the logical field email returns exactly
that field declaration selectors, in declared order - the profile-field
scan runs before the direct name lookup, the semantic scan, dynamic
discovery and the generic fallback, so none of those can alter the
result. -/
theorem email_profile_field_match_takes_priority
    (svc : FieldMappingService) (parseHost : String → Option String) (url : String)
    (m : EnhancedFieldMapping) (fdEmail : FieldDefinition)
    (hmap : get_mapping_for_url svc parseHost url = some m)
    (hmem : ("email", fdEmail) ∈ m.fields)
    (hpf : fdEmail.profile_field = some "email")
    (huniq : ∀ p, p ∈ m.fields → p.2.profile_field = some "email" → p.2 = fdEmail) :
    get_field_selectors svc parseHost url "email" = fdEmail.selectors := by
  cases hfind : m.fields.find? (fun p => p.2.profile_field = some "email") with
  | none =>
    exfalso
    have := List.find?_eq_none.mp hfind ("email", fdEmail) hmem
    simp [hpf] at this
  | some q =>
    have hqmem := List.mem_of_find?_eq_some hfind
    have hqpred : q.2.profile_field = some "email" := by
      have := List.find?_some hfind
      simpa using this
    have hq : q.2 = fdEmail := huniq q hqmem hqpred
    have hmatch : find_profile_field_match m.fields "email" = some fdEmail.selectors := by
      unfold find_profile_field_match
      rw [hfind]
      simp [hq]
    rw [get_field_selectors_of_some svc parseHost url "email" m hmap, hmatch]

/-- Witness for claim C9 at a concrete state: the mapping declares a decoy
field first and the email field second; resolution returns exactly the
email field selectors in declared order. -/
theorem email_profile_field_match_takes_priority_witness :
    get_field_selectors svcW (fun _ => none) "https://example.com/form" "email" =
      ["#email-sel", "input[name=\x27email\x27]"] :=
  email_profile_field_match_takes_priority svcW (fun _ => none)
    "https://example.com/form" mappingW fdEmailW rfl (by decide) rfl
    (by
      intro p hp hf
      simp only [mappingW, List.mem_cons, List.not_mem_nil, or_false] at hp
      rcases hp with rfl | rfl
      · exact absurd hf (by decide)
      · rfl)

theorem runClassificationRequests_cache_keys
    (oracle : String → String → Except String DropdownAnalysis) :
    ∀ (reqs : List (String × String × String)) (st : DropdownCacheState)
      (k : String) (a : DropdownAnalysis),
    (k, a) ∈ (reqs.foldl
        (fun st r => (analyze_dropdown_classification oracle st r.1 r.2.1 r.2.2).2)
        st).cache →
    (k, a) ∈ st.cache ∨ ∃ r ∈ reqs, k = dropdownCacheKey r.1 (r.2.1).utf8ByteSize := by
  intro reqs
  induction reqs with
  | nil =>
    intro st k a h
    exact Or.inl h
  | cons r rest ih =>
    intro st k a h
    rw [List.foldl_cons] at h
    rcases ih _ k a h with hstep | hrest
    · simp only [analyze_dropdown_classification] at hstep
      cases hlk : alistLookup st.cache (dropdownCacheKey r.1 (r.2.1).utf8ByteSize) with
      | some cached =>
        rw [hlk] at hstep
        exact Or.inl hstep
      | none =>
        rw [hlk] at hstep
        cases hor : oracle r.2.1 r.2.2 with
        | ok analysis =>
          rw [hor] at hstep
          rcases List.mem_cons.mp hstep with heq | hmem
          · right
            exact ⟨r, List.mem_cons_self _ _, congrArg Prod.fst heq⟩
          · exact Or.inl hmem
        | error e =>
          rw [hor] at hstep
          exact Or.inl hstep
    · right
      rcases hrest with ⟨r2, hr2, hk⟩
      exact ⟨r2, List.mem_cons_of_mem _ hr2, hk⟩

/-- Claim C4: within one service instance, two classification requests
with identical selector and identical element HTML cause exactly one
upstream oracle call - the first (from the fresh instance) calls upstream
and caches the analysis under the selector-plus-HTML-byte-length key, the
second is answered from the cache with the same analysis and the upstream
call count stays at one; and a request whose HTML byte length differs
from that of every previous request with the same selector always misses
the cache and causes a new upstream call. -/
theorem classification_cache_one_upstream_call
    (oracle : String → String → Except String DropdownAnalysis)
    (selector html context : String) (a : DropdownAnalysis)
    (reqs : List (String × String × String))
    (hok : oracle html context = .ok a)
    (hdiff : ∀ r ∈ reqs, r.1 = selector →
      (r.2.1).utf8ByteSize ≠ html.utf8ByteSize) :
    (analyze_dropdown_classification oracle initialCacheState selector html context).1 =
      .ok a ∧
    (analyze_dropdown_classification oracle initialCacheState
      selector html context).2.upstreamCalls = 1 ∧
    (analyze_dropdown_classification oracle
      (analyze_dropdown_classification oracle initialCacheState selector html context).2
      selector html context).1 = .ok a ∧
    (analyze_dropdown_classification oracle
      (analyze_dropdown_classification oracle initialCacheState selector html context).2
      selector html context).2.upstreamCalls = 1 ∧
    (∀ st : DropdownCacheState,
      (∀ len a2, (dropdownCacheKey selector len, a2) ∈ st.cache →
        len ≠ html.utf8ByteSize) →
      (analyze_dropdown_classification oracle st selector html context).2.upstreamCalls =
        st.upstreamCalls + 1) ∧
    (analyze_dropdown_classification oracle (runClassificationRequests oracle reqs)
      selector html context).2.upstreamCalls =
      (runClassificationRequests oracle reqs).upstreamCalls + 1 := by
  have hstep1 : analyze_dropdown_classification oracle initialCacheState
      selector html context =
      (.ok a, ⟨[(dropdownCacheKey selector html.utf8ByteSize, a)], 1⟩) := by
    simp only [analyze_dropdown_classification, initialCacheState]
    simp [alistLookup, hok]
  have hstep2 : analyze_dropdown_classification oracle
      ⟨[(dropdownCacheKey selector html.utf8ByteSize, a)], 1⟩
      selector html context = (.ok a,
        ⟨[(dropdownCacheKey selector html.utf8ByteSize, a)], 1⟩) := by
    simp only [analyze_dropdown_classification]
    simp [alistLookup]
  have hfresh : ∀ st : DropdownCacheState,
      alistLookup st.cache (dropdownCacheKey selector html.utf8ByteSize) = none →
      (analyze_dropdown_classification oracle st selector html context).2.upstreamCalls =
        st.upstreamCalls + 1 := by
    intro st hm
    simp only [analyze_dropdown_classification]
    rw [hm]
    cases oracle html context <;> simp
  refine ⟨by rw [hstep1], by rw [hstep1], by rw [hstep1, hstep2], by rw [hstep1, hstep2],
    ?_, ?_⟩
  · intro st hst
    apply hfresh
    cases hlk : alistLookup st.cache (dropdownCacheKey selector html.utf8ByteSize) with
    | none => rfl
    | some v =>
      exact absurd rfl (hst html.utf8ByteSize v (alistLookup_mem _ _ _ hlk))
  have hmiss : alistLookup (runClassificationRequests oracle reqs).cache
      (dropdownCacheKey selector html.utf8ByteSize) = none := by
    cases hlk : alistLookup (runClassificationRequests oracle reqs).cache
        (dropdownCacheKey selector html.utf8ByteSize) with
    | none => rfl
    | some v =>
      exfalso
      have hmem := alistLookup_mem _ _ _ hlk
      rcases runClassificationRequests_cache_keys oracle reqs initialCacheState _ _ hmem with
        hinit | ⟨r, hr, hkey⟩
      · simp [initialCacheState] at hinit
      · obtain ⟨hsel, hlen⟩ := dropdownCacheKey_injective _ _ _ _ hkey
        exact hdiff r hr hsel.symm hlen.symm
  exact hfresh _ hmiss

/-- Witness for claim C4 at a concrete oracle and request log: after an
earlier request with the same selector but a different HTML byte length,
a fresh request still performs one more upstream call. -/
theorem classification_cache_one_upstream_call_witness :
    (analyze_dropdown_classification oracleW (runClassificationRequests oracleW reqsW)
      "s" "x" "").2.upstreamCalls =
      (runClassificationRequests oracleW reqsW).upstreamCalls + 1 :=
  (classification_cache_one_upstream_call oracleW "s" "x" "" analysisW reqsW rfl
    (by decide)).2.2.2.2.2
